import Mathlib

/-!
A shallow embedding of the Hyperion-Rust storage-engine excerpt
(`hyperion/components/context.rs`, `hyperion/components/node_header.rs`,
`hyperion/internals/atomic_pointer.rs`,
`memorymanager/pointer/extended_hyperion_pointer.rs`).

Byte streams are modelled as `List Nat` (each entry one byte), addresses as
`Int`, machine integers as `Nat`/`Int` with explicit wrapping where the
source's fixed-width arithmetic can wrap.  Functions that can panic in the
source (failed `unwrap`, violated `assert!`) return `Option`, with `none`
standing for the panic.

Structures whose Rust source is not part of the excerpt (`top_node.rs`,
`sub_node.rs`, `node.rs`, `container.rs`, `jump_table.rs`) are modelled from
the specification; each such definition carries a doc comment saying so.
-/

namespace Hyperion

/-- Modelled from the spec: `NodeValue` (node.rs is not in the excerpt) is a
fixed-size value record; its width is taken as 8 bytes. -/
def sizeNodeValue : Nat := 8

/-- Modelled from the spec: `ContainerLink` (container.rs is not in the
excerpt) holds one arena handle, "an opaque 8-16 byte value"; its width is
taken as 16 bytes.  `get_container_link_size` returns this width. -/
def sizeContainerLink : Nat := 16

/-- Modelled from the spec: the `EmbeddedContainer` header (container.rs is
not in the excerpt) carries the embedded container's size byte; its width is
taken as 1 byte. -/
def sizeEmbeddedContainer : Nat := 1

/-- `size_of::<NodeHeader>()`: the node header is a one-byte union of
`TopNode` and `SubNode`. -/
def sizeNodeHeader : Nat := 1

/-- Modelled from the spec: the sub-level jump table (jump_table.rs is not in
the excerpt) is "a fixed-layout 7-entry table of 16-bit offsets", 14 bytes. -/
def sizeTopNodeJumpTable : Nat := 14

/-- Modelled from the spec: `SUBLEVEL_JUMPTABLE_SHIFTBITS` (jump_table.rs is
not in the excerpt); the table is indexed by "the high 3 bits of the sub
char", so the shift is 5. -/
def SUBLEVEL_JUMPTABLE_SHIFTBITS : Nat := 5

/-- Modelled from the spec: `CONTAINER_MAX_FREESIZE` (container.rs is not in
the excerpt), the free-space bound that triggers shrinking on ejection. -/
def CONTAINER_MAX_FREESIZE : Nat := 128

/-- Modelled from the spec: the configured container size increment
(container.rs is not in the excerpt); container sizes are multiples of it and
the initial container size is 32 bytes. -/
def containerSizeIncrement : Nat := 32

/-- Modelled from the spec: `Container::increment_container_size`
(container.rs is not in the excerpt) computes the new size "by rounding
`size + delta` up to the container-size increment". -/
def increment_container_size (size : Nat) (delta : Int) : Nat :=
  (containerSizeIncrement *
    (((size : Int) + delta + containerSizeIncrement - 1) / containerSizeIncrement)).toNat

/-- Modelled from the spec: node type flag (node.rs is not in the excerpt),
`type ∈ {Invalid, InnerNode, LeafEmpty, LeafWithValue}`, encoded 0..3 in the
listed order. -/
inductive NodeType where
  | Invalid : NodeType
  | InnerNode : NodeType
  | LeafNodeEmpty : NodeType
  | LeafNodeWithValue : NodeType
deriving DecidableEq, Repr

/-- Modelled from the spec: decoding of the 2-bit node type field. -/
def NodeType.from_bits : Nat → NodeType
  | 0 => .Invalid
  | 1 => .InnerNode
  | 2 => .LeafNodeEmpty
  | _ => .LeafNodeWithValue

/-- Modelled from the spec: `child_container ∈ {None, Link,
EmbeddedContainer, PathCompressed}` (sub_node.rs is not in the excerpt),
encoded 0..3 in the listed order. -/
inductive ChildLinkType where
  | NoneLink : ChildLinkType
  | Link : ChildLinkType
  | EmbeddedContainer : ChildLinkType
  | PathCompressed : ChildLinkType
deriving DecidableEq, Repr

/-- Modelled from the spec: decoding of the 2-bit child-container field. -/
def ChildLinkType.from_bits : Nat → ChildLinkType
  | 0 => .NoneLink
  | 1 => .Link
  | 2 => .EmbeddedContainer
  | _ => .PathCompressed

/-- `ReturnCode` (return_codes.rs), restricted to the codes the excerpt
uses. -/
inductive ReturnCode where
  | OK : ReturnCode
  | GetFailureNoLeaf : ReturnCode
deriving DecidableEq, Repr

/-- `OperationCommand` from context.rs: `Put = 0, Get = 1, Range = 2,
Delete = 3`. -/
inductive OperationCommand where
  | Put : OperationCommand
  | Get : OperationCommand
  | Range : OperationCommand
  | Delete : OperationCommand
deriving DecidableEq, Repr

/-- `OperationCommand::into_bits`: the discriminant of the enum. -/
def OperationCommand.into_bits : OperationCommand → Nat
  | .Put => 0
  | .Get => 1
  | .Range => 2
  | .Delete => 3

/-- `OperationCommand::from_bits`: decodes 0..3; any other value hits the
`panic!` arm, modelled as `none`. -/
def OperationCommand.from_bits : Nat → Option OperationCommand
  | 0 => some .Put
  | 1 => some .Get
  | 2 => some .Range
  | 3 => some .Delete
  | _ => none

/-- `PathCompressedNodeHeader` is `#[bitfield(u8, order = Msb)]` with fields
declared `size: 7 bits` then `value_present: 1 bit`; with MSB-first order the
first declared field occupies the most significant bits, so `size` is bits
7..1 of the byte. -/
def pc_size (b : Nat) : Nat := b / 2 % 128

/-- `PathCompressedNodeHeader.value_present`: the last declared field, bit 0
of the byte. -/
def pc_value_present (b : Nat) : Nat := b % 2

/-- Follows the spec's words (§6, "Persisted layout"): the claimed MSB-first
layout `[value_present:1 | size:7]`, i.e. `value_present` in bit 7. -/
def spec_pc_value_present (b : Nat) : Nat := b / 128 % 2

/-- Follows the spec's words (§6, "Persisted layout"): the claimed MSB-first
layout `[value_present:1 | size:7]`, i.e. `size` in bits 6..0. -/
def spec_pc_size (b : Nat) : Nat := b % 128

/-!
Node headers.  A node is embedded as the byte stream (`List Nat`) starting at
its header byte and running to the end of the container.  The union
`NodeUnion` of `TopNode`/`SubNode` is embedded by letting the top-node and
sub-node field accessors read the same header byte, exactly as
`as_top_node`/`as_sub_node` reinterpret the same storage.
-/

/-- The node's header byte (`*self.as_raw()`); the byte the `NodeUnion`
occupies. -/
def node_hdr (n : List Nat) : Nat := n.headD 0

/-- Modelled from the spec: MSB-first flag layout of a node header byte
(top_node.rs is not in the excerpt), fields in the order listed in §3:
`[type:2 | container_type:1 | delta:1 | jump_successor:1 | jump_table:1]`.
`TopNode::type_flag` reads the 2-bit type field. -/
def type_flag (b : Nat) : NodeType := NodeType.from_bits (b / 64 % 4)

/-- Modelled from the spec: `TopNode::container_type`, bit 5 of the header
byte (0 marks a top node, 1 a sub node). -/
def container_type (b : Nat) : Nat := b / 32 % 2

/-- Modelled from the spec: `TopNode::delta` / `SubNode::delta`, bit 4 of the
header byte; `has_delta` tests it. -/
def has_delta (b : Nat) : Bool := b / 16 % 2 == 1

/-- Modelled from the spec: `TopNode::jump_successor`, bit 3 of the header
byte. -/
def jump_successor_bit (b : Nat) : Nat := b / 8 % 2

/-- Modelled from the spec: `TopNode::jump_table`, bit 2 of the header
byte. -/
def jump_table_bit (b : Nat) : Nat := b / 4 % 2

/-- Modelled from the spec: `SubNode::child_container`, the 2-bit field after
`delta` (bits 3..2); through the `NodeUnion` these are the same bits the
top-node view reads as `jump_successor` and `jump_table`. -/
def child_container (b : Nat) : ChildLinkType := ChildLinkType.from_bits (b / 4 % 4)

/-- `NodeHeader::get_jump_overhead`:
`jump_successor * size_of::<u16>() + jump_table * size_of::<TopNodeJumpTable>()`. -/
def get_jump_overhead (n : List Nat) : Nat :=
  jump_successor_bit (node_hdr n) * 2 + jump_table_bit (node_hdr n) * sizeTopNodeJumpTable

/-- `NodeHeader::get_leaf_size`: `size_of::<NodeValue>()` when the type flag
is `LeafNodeWithValue`, otherwise 0. -/
def get_leaf_size (n : List Nat) : Nat :=
  match type_flag (node_hdr n) with
  | NodeType.LeafNodeWithValue => sizeNodeValue
  | _ => 0

/-- `NodeHeader::get_offset_child_container`:
`size_of::<NodeHeader>() + 1 + leaf_size` when `delta == 0`, else
`size_of::<NodeHeader>() + leaf_size`. -/
def get_offset_child_container (n : List Nat) : Nat :=
  if ¬ has_delta (node_hdr n) then sizeNodeHeader + 1 + get_leaf_size n
  else sizeNodeHeader + get_leaf_size n

/-- `NodeHeader::as_raw_compressed`: the path-compressed child starts at
`get_offset_child_container` bytes past the node header. -/
def pc_bytes (n : List Nat) : List Nat := n.drop (get_offset_child_container n)

/-- The path-compressed child's header byte (`*self.as_raw_compressed()`). -/
def pc_hdr (n : List Nat) : Nat := (pc_bytes n).headD 0

/-- The embedded child's size field, read through
`as_raw_embedded(get_offset_child_container())`.  Modelled from the spec:
the embedded-container header (container.rs is not in the excerpt) stores its
size in its first byte. -/
def embedded_size (n : List Nat) : Nat := (pc_bytes n).headD 0

/-- `NodeHeader::get_child_link_size`: 0 for `None`, the link width for
`Link`, the embedded container's size for `EmbeddedContainer`, the
path-compressed leaf's size for `PathCompressed`. -/
def get_child_link_size (n : List Nat) : Nat :=
  match child_container (node_hdr n) with
  | ChildLinkType.NoneLink => 0
  | ChildLinkType.Link => sizeContainerLink
  | ChildLinkType.EmbeddedContainer => embedded_size n
  | ChildLinkType.PathCompressed => pc_size (pc_hdr n)

/-- `NodeHeader::get_offset_top_node_delta`:
`size_of::<NodeHeader>() + jump_overhead + leaf_size`. -/
def get_offset_top_node_delta (n : List Nat) : Nat :=
  sizeNodeHeader + get_jump_overhead n + get_leaf_size n

/-- `NodeHeader::get_offset_top_node_nondelta`: one byte more than the delta
form. -/
def get_offset_top_node_nondelta (n : List Nat) : Nat :=
  get_offset_top_node_delta n + 1

/-- `NodeHeader::get_offset_top_node`: dispatch on the delta bit. -/
def get_offset_top_node (n : List Nat) : Nat :=
  if ¬ has_delta (node_hdr n) then get_offset_top_node_nondelta n
  else get_offset_top_node_delta n

/-- `NodeHeader::get_offset_sub_node_delta`:
`size_of::<NodeHeader>() + jump_overhead + child_link_size`. -/
def get_offset_sub_node_delta (n : List Nat) : Nat :=
  sizeNodeHeader + get_jump_overhead n + get_child_link_size n

/-- `NodeHeader::get_offset_sub_node_nondelta`: one byte more than the delta
form. -/
def get_offset_sub_node_nondelta (n : List Nat) : Nat :=
  get_offset_sub_node_delta n + 1

/-- `NodeHeader::get_offset_sub_node`: dispatch on the delta bit. -/
def get_offset_sub_node (n : List Nat) : Nat :=
  if ¬ has_delta (node_hdr n) then get_offset_sub_node_nondelta n
  else get_offset_sub_node_delta n

/-- `NodeHeader::get_offset`: top-node offset when `container_type == 0`,
sub-node offset otherwise. -/
def get_offset (n : List Nat) : Nat :=
  if container_type (node_hdr n) = 0 then get_offset_top_node n
  else get_offset_sub_node n

/-- `NodeHeader::get_offset_node_value`: past header and jump artifacts for a
top node; past header (and the extra non-delta byte) for a sub node. -/
def get_offset_node_value (n : List Nat) : Nat :=
  if container_type (node_hdr n) = 0 then sizeNodeHeader + get_jump_overhead n
  else if ¬ has_delta (node_hdr n) then sizeNodeHeader + 1
  else sizeNodeHeader

/-- `NodeHeader::get_offset_jump`: `size_of::<NodeHeader>() + 1` without
delta, `size_of::<NodeHeader>()` with. -/
def get_offset_jump (n : List Nat) : Nat :=
  if ¬ has_delta (node_hdr n) then sizeNodeHeader + 1
  else sizeNodeHeader

/-- `NodeHeader::get_offset_jump_table`:
`get_offset_jump + jump_successor * size_of::<u16>()`. -/
def get_offset_jump_table (n : List Nat) : Nat :=
  get_offset_jump n + jump_successor_bit (node_hdr n) * 2

/-- A little-endian 16-bit read at a byte offset of the node's stream. -/
def read_u16 (n : List Nat) (off : Nat) : Nat :=
  n.getD off 0 + 256 * n.getD (off + 1) 0

/-- Follows the spec's words (§4.1, the claim under scrutiny): a sub node's
total size is `header(1) + [1 if !delta] + child_link_size + leaf_size`, with
no successor-jump or jump-table overhead. -/
def spec_sub_node_size (n : List Nat) : Nat :=
  1 + (if ¬ has_delta (node_hdr n) then 1 else 0) + get_child_link_size n + get_leaf_size n

/-!
Path-compressed leaf operations.  The operation context's key is embedded as
the byte list `op_key`; `op_key.add_get(2)` becomes `op_key.drop 2`, and
`memcmp(a, b, k) == 0` becomes equality of the first `k` bytes.
-/

/-- The path-compressed overhead computed by `compare_path_compressed_node`:
`size_of::<PathCompressedNodeHeader>() + value_present * size_of::<NodeValue>()`. -/
def pc_overhead (n : List Nat) : Nat :=
  1 + pc_value_present (pc_hdr n) * sizeNodeValue

/-- The residual key length computed by `compare_path_compressed_node`:
`pc_header.size() - overhead` (`u8` subtraction, truncating like the
well-formed case). -/
def residual_len (n : List Nat) : Nat :=
  pc_size (pc_hdr n) - pc_overhead n

/-- `NodeHeader::compare_path_compressed_node`: false when
`key_len_left - 2 != key_len as i32`, otherwise the `memcmp` of `key_len`
bytes of the operation key from offset 2 against the residual key stored
after the overhead. -/
def compare_path_compressed_node (n : List Nat) (key_len_left : Int) (op_key : List Nat) : Bool :=
  if key_len_left - 2 ≠ (residual_len n : Int) then false
  else
    decide ((op_key.drop 2).take (residual_len n) =
      ((pc_bytes n).drop (pc_overhead n)).take (residual_len n))

/-- Result of `use_sub_node_jump_table`: the updated
`ctx.current_container_offset` and the returned skip count. -/
structure SubJumpOutcome where
  new_offset : Int
  skipped : Nat
deriving DecidableEq, Repr

/-- `NodeHeader::use_sub_node_jump_table`: with non-zero jump class it adds
`get_offset()` plus `*jump_table_pointer + (jump_class - 1)` (a `u16` sum of
the 16-bit entry at the table base and the class minus one) to the container
offset and returns `jump_class << SUBLEVEL_JUMPTABLE_SHIFTBITS`; with class 0
it adds `get_offset()` and returns 0. -/
def use_sub_node_jump_table (n : List Nat) (cur : Int) (second_char : Nat) : SubJumpOutcome :=
  let jump_class := second_char / 2 ^ SUBLEVEL_JUMPTABLE_SHIFTBITS
  if jump_class > 0 then
    { new_offset := cur + (get_offset n : Int) +
        ((read_u16 n (get_offset_jump_table n) + (jump_class - 1)) % 65536 : Nat),
      skipped := jump_class * 2 ^ SUBLEVEL_JUMPTABLE_SHIFTBITS % 256 }
  else
    { new_offset := cur + (get_offset n : Int), skipped := 0 }

/-- Follows the spec's words (§4.6 and the claim): skip into the bucket
selected by the class by reading the 16-bit offset stored at bucket index
`class - 1` (two bytes per entry), returning the skipped sub-char count. -/
def spec_use_sub_node_jump_table (n : List Nat) (cur : Int) (second_char : Nat) : SubJumpOutcome :=
  let jump_class := second_char / 2 ^ SUBLEVEL_JUMPTABLE_SHIFTBITS
  if jump_class > 0 then
    { new_offset := cur + (get_offset n : Int) +
        (read_u16 n (get_offset_jump_table n + 2 * (jump_class - 1)) : Nat),
      skipped := jump_class * 2 ^ SUBLEVEL_JUMPTABLE_SHIFTBITS % 256 }
  else
    { new_offset := cur + (get_offset n : Int), skipped := 0 }

/-- `PathCompressedEjectionContext` of context.rs: the side-band copy of a
path-compressed leaf.  `residual_key` is the filled prefix of the
`partial_key` buffer, `node_value` the value record, `header_byte` the copied
`PathCompressedNodeHeader`. -/
structure PathCompressedEjection where
  node_value : List Nat
  residual_key : List Nat
  pec_valid : Nat
  header_byte : Nat
deriving DecidableEq, Repr

/-- `NodeHeader::safe_path_compressed_context`: builds a fresh default
ejection context, then with `value_present == 1` copies
`size - (header + value)` bytes from `pc + header + value` into the partial
key and `size_of::<NodeValue>()` bytes from the same source offset
`pc + header + value` into `node_value`; without a value it copies
`size - header` bytes from `pc + header` into the partial key (the default
`node_value` is the zero record); finally sets `pec_valid` and copies the
header byte. -/
def safe_path_compressed_context (n : List Nat) : PathCompressedEjection :=
  if pc_value_present (pc_hdr n) = 1 then
    { residual_key :=
        ((pc_bytes n).drop (1 + sizeNodeValue)).take (pc_size (pc_hdr n) - (1 + sizeNodeValue)),
      node_value := ((pc_bytes n).drop (1 + sizeNodeValue)).take sizeNodeValue,
      pec_valid := 1,
      header_byte := pc_hdr n }
  else
    { residual_key := ((pc_bytes n).drop 1).take (pc_size (pc_hdr n) - 1),
      node_value := List.replicate sizeNodeValue 0,
      pec_valid := 1,
      header_byte := pc_hdr n }

/-- Follows the spec's words (§4.4 "Safe context" and the claim): the stored
value record immediately follows the path-compressed header, so the ejection
context's `node_value` should equal the `size_of::<NodeValue>()` bytes at
`pc + size_of::<PathCompressedNodeHeader>()`. -/
def spec_stored_pc_value (n : List Nat) : List Nat :=
  ((pc_bytes n).drop 1).take sizeNodeValue

/-!
`get_node_value`.  The slice of the operation context it touches is embedded
as `GetContext`; a failed `unwrap` of `return_value` is the `none` result.
-/

/-- The fields of `OperationContext` that `get_node_value` reads or writes:
the `pathcompressed_child` header bit, the `return_value` slot and the
`operation_done` header bit. -/
structure GetContext where
  pathcompressed_child : Nat
  return_value : Option (List Nat)
  operation_done : Nat
deriving DecidableEq, Repr

/-- `NodeHeader::get_node_value_pc`: when the leaf carries a value, copy the
`size_of::<NodeValue>()` bytes following the path-compressed header into the
return value (panicking, i.e. `none`, if no return slot exists); always mark
the operation done and return `OK`. -/
def get_node_value_pc (n : List Nat) (ocx : GetContext) : Option (ReturnCode × GetContext) :=
  if pc_value_present (pc_hdr n) > 0 then
    match ocx.return_value with
    | none => none
    | some _ =>
      some (ReturnCode.OK,
        { ocx with return_value := some (((pc_bytes n).drop 1).take sizeNodeValue),
                   operation_done := 1 })
  else
    some (ReturnCode.OK, { ocx with operation_done := 1 })

/-- `NodeHeader::get_node_value`: dispatch to the path-compressed reader when
`pathcompressed_child == 1`; return `GetFailureNoLeaf` for `InnerNode` or
`Invalid`; copy the stored value for `LeafNodeWithValue` (panicking, i.e.
`none`, if no return slot exists); mark done and return `OK` otherwise. -/
def get_node_value (n : List Nat) (ocx : GetContext) : Option (ReturnCode × GetContext) :=
  if ocx.pathcompressed_child = 1 then get_node_value_pc n ocx
  else
    if type_flag (node_hdr n) = NodeType.InnerNode ∨ type_flag (node_hdr n) = NodeType.Invalid then
      some (ReturnCode.GetFailureNoLeaf, ocx)
    else
      if type_flag (node_hdr n) = NodeType.LeafNodeWithValue then
        match ocx.return_value with
        | none => none
        | some _ =>
          some (ReturnCode.OK,
            { ocx with return_value := some ((n.drop (get_offset_node_value n)).take sizeNodeValue),
                       operation_done := 1 })
      else
        some (ReturnCode.OK, { ocx with operation_done := 1 })

/-!
Container expansion (context.rs).  Raw addresses are embedded as `Int`; the
arena is embedded by giving the state the address (`new_base`) that
`get_pointer` yields after `reallocate`.  `offset_from(a, b)` is `a - b`, in
bytes, matching the source's `c_void` pointer arithmetic.
-/

/-- The size after `new_expand`/`new_expand_embedded`: when
`free_space_left > required` the container is reallocated to
`increment_container_size(size, required - free)` (the `u32` difference
`required - free_space_left`, reinterpreted as `i32`, is the negative
`required - free` in that branch); otherwise the size is unchanged. -/
def expanded_size (size free required : Nat) : Nat :=
  if required < free then increment_container_size size ((required : Int) - (free : Int))
  else size

/-- The free-byte count after `new_expand`/`new_expand_embedded`:
`(new_size - old_size) + free_space_left` on the reallocating branch,
unchanged otherwise. -/
def expanded_free (size free required : Nat) : Nat :=
  if required < free then expanded_size size free required - size + free
  else free

/-- The interior state `new_expand`/`new_expand_embedded` manipulate: the
embedded traversal context, the jump contexts and the traversal offset.
`base` is the root container's current address, `new_base` the address the
arena hands back after a reallocation. -/
structure ExpandState where
  depth : Int
  base : Int
  new_base : Int
  size : Nat
  free : Nat
  cur_offset : Int
  sub_top_node : Option Int
  predecessor : Option Int
  pred_offset : Int
  emb_stack : List Int
  next_emb_offset : Int
  next_emb_addr : Int
deriving DecidableEq, Repr

/-- What an expansion call returns: whether `reallocate` ran, the updated
state, and the address of the returned `NodeHeader`. -/
structure ExpandOut where
  reallocated : Bool
  state : ExpandState
  node_addr : Int
deriving DecidableEq, Repr

/-- `OperationContext::new_expand`.  When `free_space_left > required`: the
sub-level snapshot is `offset_from(container, top_node) = base - top_node`;
the container is reallocated and re-resolved at `new_base`; the free bytes
become `new_size - old_size + free`; the predecessor, if any, is re-created
at `new_base + top_node_predecessor_offset_absolute`; the sub-level top node
is re-created at `new_base + snapshot` only if the snapshot is positive; the
`assert_eq!(embedded_container_depth, 0)` is the `none` case.  Either way the
returned node sits at `current_container_offset` past the (current)
container base. -/
def new_expand (s : ExpandState) (required : Nat) : Option ExpandOut :=
  if required < s.free then
    let sublevel_off : Int :=
      match s.sub_top_node with
      | some a => s.base - a
      | none => 0
    if s.depth ≠ 0 then none
    else
      some { reallocated := true,
             state := { s with
               base := s.new_base,
               size := expanded_size s.size s.free required,
               free := expanded_free s.size s.free required,
               predecessor := s.predecessor.map (fun _ => s.new_base + s.pred_offset),
               sub_top_node :=
                 if sublevel_off > 0 then some (s.new_base + sublevel_off)
                 else s.sub_top_node },
             node_addr := s.new_base + s.cur_offset }
  else
    some { reallocated := false, state := s, node_addr := s.base + s.cur_offset }

/-- `OperationContext::new_expand_embedded`.  Mirrors `new_expand`, and in
the reallocating branch additionally: snapshots `base - entry` for every
embedded-stack index below `next_embedded_container_offset` (the source's
loop bound; unvisited slots stay 0), re-roots `next_embedded_container` at
`new_base + next_embedded_container_offset`, and rebuilds the stack entries
below `embedded_container_depth` at `new_base + snapshot`.  The returned node
sits at `current_container_offset + next_embedded_container_offset` past the
(current) container base. -/
def new_expand_embedded (s : ExpandState) (required : Nat) : Option ExpandOut :=
  if required < s.free then
    let sublevel_off : Int :=
      match s.sub_top_node with
      | some a => s.base - a
      | none => 0
    let bound := s.next_emb_offset.toNat
    let snap : Nat → Int := fun i => if i < bound then s.base - s.emb_stack.getD i 0 else 0
    some { reallocated := true,
           state := { s with
             base := s.new_base,
             size := expanded_size s.size s.free required,
             free := expanded_free s.size s.free required,
             next_emb_addr := s.new_base + s.next_emb_offset,
             emb_stack :=
               (List.range s.emb_stack.length).map (fun i =>
                 if i < s.depth.toNat then s.new_base + snap i else s.emb_stack.getD i 0),
             predecessor := s.predecessor.map (fun _ => s.new_base + s.pred_offset),
             sub_top_node :=
               if sublevel_off > 0 then some (s.new_base + sublevel_off)
               else s.sub_top_node },
           node_addr := s.new_base + s.cur_offset + s.next_emb_offset }
  else
    some { reallocated := false, state := s,
           node_addr := s.base + s.cur_offset + s.next_emb_offset }

/-- `OperationContext::meta_expand`: `new_expand` at embedded depth 0,
`new_expand_embedded` otherwise. -/
def meta_expand (s : ExpandState) (required : Nat) : Option ExpandOut :=
  if s.depth = 0 then new_expand s required
  else new_expand_embedded s required

/-- Follows the spec's words (§4.3 step 6 and the claim): after a
reallocation every snapshotted interior reference is rebased by adding its
saved relative byte offset (its distance from the old base) to the new
base. -/
def spec_rebased (old_base new_base addr : Int) : Int :=
  new_base + (addr - old_base)

/-!
Container ejection (node_header.rs).  The parts of the state `eject_container`
decides about: the sub node's child-container flag and link slot, the ejected
container's body, and the embedded depth.  The arena is embedded as a fresh
handle counter; `initialize_ejected_container` hands out `next_handle`.
-/

/-- The state entering `eject_container`. `emb_size` is
`(*embedded_stack[0]).size()`, `emb_rel_offset` the true byte offset of that
embedded container within the root container, `emb_payload` the bytes that
follow its embedded header. -/
structure EjectState where
  depth : Int
  root_size : Nat
  root_free : Nat
  emb_size : Nat
  emb_rel_offset : Nat
  emb_payload : List Nat
  next_handle : Nat
deriving DecidableEq, Repr

/-- The state after `eject_container`. -/
structure EjectResult where
  child : ChildLinkType
  link_slot : Option Nat
  new_body : List Nat
  new_free : Int
  tail_len : Int
  depth : Int
  root_size : Nat
  root_free : Int
deriving DecidableEq, Repr

/-- `eject_container`.  Asserts `embedded_container_depth > 0`; calls
`meta_expand(get_container_link_size())` (embedded depth is non-zero, so the
embedded variant: the sizes follow `expanded_size`/`expanded_free`); asserts
the root container is larger than the embedded one; allocates the ejected
container and copies `em_csize - size_of::<EmbeddedContainer>()` payload
bytes into it; sets the sub node's child container to `Link` and stamps the
new handle; zeroes the depth; computes the tail length with the source's
`offset_from(root, embedded)` (the negated offset); moves the tail; applies
`update_space_usage` with `-(em_csize - link_size)`, asserting the root stays
larger than the free bytes; and shrinks the root to the smallest increment
multiple when the free bytes exceed `CONTAINER_MAX_FREESIZE`.  Failed
assertions are `none`. -/
def eject_container (s : EjectState) : Option EjectResult :=
  if s.depth ≤ 0 then none
  else
    let ro_size := expanded_size s.root_size s.root_free sizeContainerLink
    let ro_free := expanded_free s.root_size s.root_free sizeContainerLink
    let em := s.emb_size
    if ro_size ≤ em then none
    else
      let handle := s.next_handle
      let body := s.emb_payload.take (em - sizeEmbeddedContainer)
      let emb_off : Int := -(s.emb_rel_offset : Int)
      let tail : Int := (ro_size : Int) - ((em : Int) + emb_off + (ro_free : Int))
      let delta : Int := -((em : Int) - (sizeContainerLink : Int))
      let nf : Int := (ro_free : Int) - delta
      if (ro_size : Int) ≤ nf then none
      else
        if nf > (CONTAINER_MAX_FREESIZE : Int) then
          let used : Int := (ro_size : Int) - nf
          if used ≤ 0 then none
          else
            let inc : Int := (containerSizeIncrement : Int)
            let tgt : Int := used / inc + (if used % inc ≠ 0 then 1 else 0)
            some { child := ChildLinkType.Link, link_slot := some handle, new_body := body,
                   new_free := nf % inc, tail_len := tail, depth := 0,
                   root_size := (tgt * inc).toNat, root_free := nf % inc }
        else
          some { child := ChildLinkType.Link, link_slot := some handle, new_body := body,
                 new_free := nf, tail_len := tail, depth := 0,
                 root_size := ro_size, root_free := nf }

/-! Helper lemmas about list reads, shared by several proofs below. -/

/-- Reading past a `drop` is reading at the shifted index. -/
theorem list_getq_drop {α : Type} (l : List α) (n m : Nat) :
    (l.drop n).get? m = l.get? (n + m) := by
  induction n generalizing l with
  | zero => simp
  | succ k ih =>
    cases l with
    | nil => simp
    | cons a l =>
      rw [List.drop_succ_cons, ih l, Nat.succ_add, List.get?_cons_succ]

/-- Two prefixes of length `m` agree exactly when every read below `m`
agrees, provided both lists are long enough. -/
theorem list_take_eq_iff {α : Type} (m : Nat) (xs ys : List α)
    (hx : m ≤ xs.length) (hy : m ≤ ys.length) :
    xs.take m = ys.take m ↔ ∀ i, i < m → xs.get? i = ys.get? i := by
  induction m generalizing xs ys with
  | zero => simp
  | succ k ih =>
    cases xs with
    | nil => simp at hx
    | cons x xs =>
      cases ys with
      | nil => simp at hy
      | cons y ys =>
        simp only [List.take_succ_cons, List.cons.injEq]
        rw [ih xs ys (by simpa using hx) (by simpa using hy)]
        constructor
        · rintro ⟨rfl, h⟩ i hi
          cases i with
          | zero => rfl
          | succ j =>
            rw [List.get?_cons_succ, List.get?_cons_succ]
            exact h j (Nat.lt_of_succ_lt_succ hi)
        · intro h
          refine ⟨?_, fun j hj => ?_⟩
          · have h0 := h 0 (Nat.succ_pos k)
            simpa using h0
          · have hj1 := h (j + 1) (Nat.succ_lt_succ hj)
            rwa [List.get?_cons_succ, List.get?_cons_succ] at hj1

/-- Claim C3: `compare_path_compressed_node` returns true if and only if the
path-compressed leaf's residual key length — its 7-bit size minus the header
byte and, when `value_present` is set, minus `size_of::<NodeValue>()` —
equals the operation's `key_len_left - 2`, and the residual key bytes compare
equal bytewise to the operation key starting at key offset 2.  The
hypotheses state that the leaf is well formed (its size covers the overhead)
and that key and leaf buffers reach as far as the `memcmp` reads. -/
theorem compare_path_compressed_node_iff (n : List Nat) (kll : Int) (key : List Nat)
    (hwf : pc_overhead n ≤ pc_size (pc_hdr n))
    (hkey : 2 + residual_len n ≤ key.length)
    (hpc : pc_overhead n + residual_len n ≤ (pc_bytes n).length) :
    compare_path_compressed_node n kll key = true ↔
      ((pc_size (pc_hdr n) : Int) - (pc_overhead n : Int) = kll - 2 ∧
        ∀ i, i < residual_len n → key.get? (2 + i) = (pc_bytes n).get? (pc_overhead n + i)) := by
  have hcast : (residual_len n : Int) = (pc_size (pc_hdr n) : Int) - (pc_overhead n : Int) := by
    unfold residual_len
    exact Nat.cast_sub hwf
  unfold compare_path_compressed_node
  by_cases hc : kll - 2 = (residual_len n : Int)
  · rw [if_neg (not_not_intro hc), decide_eq_true_iff]
    have hlen1 : residual_len n ≤ (key.drop 2).length := by
      rw [List.length_drop]; omega
    have hlen2 : residual_len n ≤ ((pc_bytes n).drop (pc_overhead n)).length := by
      rw [List.length_drop]; omega
    rw [list_take_eq_iff (residual_len n) _ _ hlen1 hlen2]
    constructor
    · intro h
      refine ⟨by omega, fun i hi => ?_⟩
      have hh := h i hi
      rwa [list_getq_drop, list_getq_drop] at hh
    · rintro ⟨-, h⟩ i hi
      rw [list_getq_drop, list_getq_drop]
      exact h i hi
  · rw [if_pos hc]
    constructor
    · intro h
      exact absurd h (by decide)
    · rintro ⟨h1, -⟩
      exact absurd (by omega : kll - 2 = (residual_len n : Int)) hc

/-- Witness for C3 at a concrete leaf and key: a sub node with a delta
header, a path-compressed child of size 18 carrying a value, residual key
`[1..9]`, and a 11-byte operation key matching from offset 2. -/
theorem compare_path_compressed_node_iff_witness :
    compare_path_compressed_node
      [60, 37, 9, 9, 9, 9, 9, 9, 9, 9, 1, 2, 3, 4, 5, 6, 7, 8, 9] 11
      [0, 0, 1, 2, 3, 4, 5, 6, 7, 8, 9] = true :=
  (compare_path_compressed_node_iff
      [60, 37, 9, 9, 9, 9, 9, 9, 9, 9, 1, 2, 3, 4, 5, 6, 7, 8, 9] 11
      [0, 0, 1, 2, 3, 4, 5, 6, 7, 8, 9]
      (by decide) (by decide) (by decide)).mpr ⟨by decide, by decide⟩

/-- Claim C1: the claim says that with `free_bytes ≥ required` no
reallocation happens; but the source guards the whole reallocation path with
`free_space_left > required`, so a container with 10 free bytes asked for 5
is reallocated — through `meta_expand` at embedded depth 0 (`new_expand`) and
at depth 1 (`new_expand_embedded`) alike. -/
theorem expand_reallocates_when_free_exceeds_required :
    (meta_expand
      { depth := 0, base := 1000, new_base := 2000, size := 32, free := 10,
        cur_offset := 20, sub_top_node := none, predecessor := none, pred_offset := 0,
        emb_stack := [], next_emb_offset := 0, next_emb_addr := 0 } 5).map
        (fun o => o.reallocated) = some true ∧
    (meta_expand
      { depth := 1, base := 1000, new_base := 2000, size := 32, free := 10,
        cur_offset := 20, sub_top_node := none, predecessor := none, pred_offset := 0,
        emb_stack := [], next_emb_offset := 0, next_emb_addr := 0 } 5).map
        (fun o => o.reallocated) = some true := by
  exact ⟨rfl, rfl⟩

/-- Claim C2: on a reallocating `new_expand` the sub-level jump-table anchor
is not rebased.  The snapshot is taken as
`offset_from(container, top_node) = base - top_node`, which is negative for
any node inside the container, so the `snapshot > 0` rebase guard never
fires: with the old base 1000, the anchor at 1040 and the new base 2000, the
anchor stays at the stale address 1040 instead of the rebased 2040. -/
theorem new_expand_leaves_sublevel_top_node_unrebased :
    (new_expand
      { depth := 0, base := 1000, new_base := 2000, size := 32, free := 10,
        cur_offset := 20, sub_top_node := some 1040, predecessor := none, pred_offset := 0,
        emb_stack := [], next_emb_offset := 0, next_emb_addr := 0 } 5).map
        (fun o => o.reallocated) = some true ∧
    (new_expand
      { depth := 0, base := 1000, new_base := 2000, size := 32, free := 10,
        cur_offset := 20, sub_top_node := some 1040, predecessor := none, pred_offset := 0,
        emb_stack := [], next_emb_offset := 0, next_emb_addr := 0 } 5).map
        (fun o => o.state.sub_top_node) = some (some 1040) ∧
    spec_rebased 1000 2000 1040 = 2040 ∧
    (some (1040 : Int) : Option Int) ≠ some 2040 := by
  refine ⟨rfl, rfl, rfl, by decide⟩

/-- Claim C4: the sub-node offset calculus diverges from the claimed
`header + [1 if !delta] + child_link_size + leaf_size`.  For a non-delta sub
node of type `LeafNodeWithValue` with no child (header byte `0b11100000`),
`get_offset_sub_node` yields 2 — it never adds the leaf size that
`get_offset_child_container` places between the delta byte and the child —
while the claimed formula yields `2 + size_of::<NodeValue>() = 10`. -/
theorem get_offset_sub_node_omits_leaf_size :
    get_offset_sub_node [224] = 2 ∧
    spec_sub_node_size [224] = 10 ∧
    container_type (node_hdr [224]) = 1 ∧
    type_flag (node_hdr [224]) = NodeType.LeafNodeWithValue ∧
    child_container (node_hdr [224]) = ChildLinkType.NoneLink := by
  decide

/-- Counterexample for C5: the byte 1 decodes under the source's
`#[bitfield(u8, order = Msb)]` declaration (`size` first, hence in the high
seven bits) as `size = 0, value_present = 1`, while the claimed layout
`[value_present:1 | size:7]` would decode it as `size = 1,
value_present = 0`. -/
theorem pc_header_layout_counterexample :
    pc_size 1 = 0 ∧ pc_value_present 1 = 1 ∧
    spec_pc_size 1 = 1 ∧ spec_pc_value_present 1 = 0 := by
  decide

/-- Amended C5: in the single-byte encoding of `PathCompressedNodeHeader`
the 7-bit size field occupies the seven most significant bits and the
`value_present` flag the least significant bit — MSB-first layout
`[size:7 | value_present:1]`. -/
theorem pc_header_layout (s v : Nat) (hs : s < 128) (hv : v < 2) :
    pc_size (2 * s + v) = s ∧ pc_value_present (2 * s + v) = v := by
  unfold pc_size pc_value_present
  omega

/-- Witness for the amended C5 at `size = 5`, `value_present = 1`
(byte 11). -/
theorem pc_header_layout_witness :
    pc_size 11 = 5 ∧ pc_value_present 11 = 1 :=
  pc_header_layout 5 1 (by decide) (by decide)

/-- Claim C6: `use_sub_node_jump_table` does not read the bucket at index
`class - 1`.  Because of `*jump_table_pointer + (jump_class as u16 - 1)` it
reads bucket 0 and adds `class - 1` to it as a number.  On a top node with a
jump table `[10, 20, 0, 0, 0, 0, 0]` and target sub char `0x40` (class 2),
the code advances by `get_offset() + 10 + 1` to 126 while the claimed bucket
read gives `get_offset() + 20`, i.e. 135; the returned skip count 64 agrees. -/
theorem use_sub_node_jump_table_reads_bucket_zero :
    use_sub_node_jump_table
      [20, 10, 0, 20, 0, 0, 0, 0, 0, 0, 0, 0, 0, 0, 0] 100 64 =
      { new_offset := 126, skipped := 64 } ∧
    spec_use_sub_node_jump_table
      [20, 10, 0, 20, 0, 0, 0, 0, 0, 0, 0, 0, 0, 0, 0] 100 64 =
      { new_offset := 135, skipped := 64 } ∧
    ((126 : Int) ≠ 135) := by
  refine ⟨rfl, rfl, by decide⟩

/-- Claim C7: with `value_present = 1`, `safe_path_compressed_context` fills
`node_value` from the wrong source offset — `pc + header + value`, the start
of the residual key — instead of `pc + header`, where the value record lives
(the offset `get_node_value_pc` and `update_path_compressed_node` use).  On
a leaf of size 18 whose value record is eight bytes `9` and whose residual
key is `[1..9]`, the ejection context receives `[1..8]` as its value; the
header copy, residual-key copy and `pec_valid` behave as claimed. -/
theorem safe_path_compressed_context_copies_key_bytes_as_value :
    (safe_path_compressed_context
      [60, 37, 9, 9, 9, 9, 9, 9, 9, 9, 1, 2, 3, 4, 5, 6, 7, 8, 9]).node_value =
      [1, 2, 3, 4, 5, 6, 7, 8] ∧
    spec_stored_pc_value
      [60, 37, 9, 9, 9, 9, 9, 9, 9, 9, 1, 2, 3, 4, 5, 6, 7, 8, 9] =
      [9, 9, 9, 9, 9, 9, 9, 9] ∧
    (safe_path_compressed_context
      [60, 37, 9, 9, 9, 9, 9, 9, 9, 9, 1, 2, 3, 4, 5, 6, 7, 8, 9]).residual_key =
      [1, 2, 3, 4, 5, 6, 7, 8, 9] ∧
    (safe_path_compressed_context
      [60, 37, 9, 9, 9, 9, 9, 9, 9, 9, 1, 2, 3, 4, 5, 6, 7, 8, 9]).pec_valid = 1 ∧
    (safe_path_compressed_context
      [60, 37, 9, 9, 9, 9, 9, 9, 9, 9, 1, 2, 3, 4, 5, 6, 7, 8, 9]).header_byte = 37 ∧
    ([1, 2, 3, 4, 5, 6, 7, 8] : List Nat) ≠ [9, 9, 9, 9, 9, 9, 9, 9] := by
  refine ⟨rfl, rfl, rfl, rfl, rfl, by decide⟩

/-- Claim C8: when `eject_container` is entered with
`embedded_container_depth > 0` (and its assertions hold: the expansion left
the root free space within the link size so no reallocation ran, the root is
larger than the embedded container, and the root stays larger than the
resulting free bytes), it returns with the sub node's child container set to
`Link`, the link slot stamped with the handle of the newly initialized
ejected container, `em_size - size_of::<EmbeddedContainer>()` payload bytes
copied into that container, and the embedded depth reset to 0. -/
theorem eject_container_postconditions (s : EjectState)
    (hd : 0 < s.depth)
    (hro : s.emb_size < expanded_size s.root_size s.root_free sizeContainerLink)
    (hnf : (expanded_free s.root_size s.root_free sizeContainerLink : Int) +
        (s.emb_size : Int) - (sizeContainerLink : Int) <
        (expanded_size s.root_size s.root_free sizeContainerLink : Int)) :
    ∃ r, eject_container s = some r ∧
      r.child = ChildLinkType.Link ∧
      r.link_slot = some s.next_handle ∧
      r.new_body = s.emb_payload.take (s.emb_size - sizeEmbeddedContainer) ∧
      r.depth = 0 := by
  simp only [eject_container]
  split_ifs with h1 h2 h3 h4 h5
  all_goals first
    | omega
    | exact ⟨_, rfl, rfl, rfl, rfl, rfl⟩

/-- Witness for C8: depth 1, a 32-byte root with 4 free bytes, a 20-byte
embedded container with 19 payload bytes, next arena handle 7. -/
theorem eject_container_postconditions_witness :
    ∃ r, eject_container
      { depth := 1, root_size := 32, root_free := 4, emb_size := 20,
        emb_rel_offset := 8,
        emb_payload := [1, 2, 3, 4, 5, 6, 7, 8, 9, 10, 11, 12, 13, 14, 15, 16, 17, 18, 19],
        next_handle := 7 } = some r ∧
      r.child = ChildLinkType.Link ∧
      r.link_slot = some 7 ∧
      r.new_body = [1, 2, 3, 4, 5, 6, 7, 8, 9, 10, 11, 12, 13, 14, 15, 16, 17, 18, 19] ∧
      r.depth = 0 :=
  eject_container_postconditions
    { depth := 1, root_size := 32, root_free := 4, emb_size := 20,
      emb_rel_offset := 8,
      emb_payload := [1, 2, 3, 4, 5, 6, 7, 8, 9, 10, 11, 12, 13, 14, 15, 16, 17, 18, 19],
      next_handle := 7 }
    (by decide) (by decide) (by decide)

/-- Claim C9: for a node that is not a path-compressed child,
`get_node_value` returns `GetFailureNoLeaf` exactly when the node's type flag
is `Invalid` or `InnerNode`; otherwise it returns `OK`, copying the stored
value into the operation's return value when the type is
`LeafNodeWithValue`, and it does not panic as long as the get operation
carries a return-value slot. -/
theorem get_node_value_no_leaf_iff (n : List Nat) (ocx : GetContext)
    (hpc : ocx.pathcompressed_child ≠ 1) (hrv : ocx.return_value.isSome) :
    ∃ r, get_node_value n ocx = some r ∧
      (r.1 = ReturnCode.GetFailureNoLeaf ↔
        (type_flag (node_hdr n) = NodeType.Invalid ∨
          type_flag (node_hdr n) = NodeType.InnerNode)) ∧
      (type_flag (node_hdr n) = NodeType.LeafNodeWithValue →
        r.2.return_value = some ((n.drop (get_offset_node_value n)).take sizeNodeValue)) := by
  obtain ⟨buf, hbuf⟩ := Option.isSome_iff_exists.mp hrv
  unfold get_node_value
  rw [if_neg hpc]
  cases h : type_flag (node_hdr n) with
  | Invalid =>
    rw [if_pos (Or.inr rfl)]
    exact ⟨_, rfl, by simp, by simp⟩
  | InnerNode =>
    rw [if_pos (Or.inl rfl)]
    exact ⟨_, rfl, by simp, by simp⟩
  | LeafNodeEmpty =>
    rw [if_neg (by simp), if_neg (by simp)]
    exact ⟨_, rfl, by simp, by simp⟩
  | LeafNodeWithValue =>
    rw [if_neg (by simp), if_pos rfl, hbuf]
    exact ⟨_, rfl, by simp, fun _ => rfl⟩

/-- Witness for C9: a non-delta top leaf node with a value (header byte
`0b11000000`) whose value record is eight bytes `5`, with an allocated
return-value slot. -/
theorem get_node_value_no_leaf_iff_witness :
    ∃ r, get_node_value [192, 5, 5, 5, 5, 5, 5, 5, 5]
        { pathcompressed_child := 0, return_value := some [], operation_done := 0 } = some r ∧
      (r.1 = ReturnCode.GetFailureNoLeaf ↔
        (type_flag (node_hdr [192, 5, 5, 5, 5, 5, 5, 5, 5]) = NodeType.Invalid ∨
          type_flag (node_hdr [192, 5, 5, 5, 5, 5, 5, 5, 5]) = NodeType.InnerNode)) ∧
      (type_flag (node_hdr [192, 5, 5, 5, 5, 5, 5, 5, 5]) = NodeType.LeafNodeWithValue →
        r.2.return_value = some (([192, 5, 5, 5, 5, 5, 5, 5, 5].drop
          (get_offset_node_value [192, 5, 5, 5, 5, 5, 5, 5, 5])).take sizeNodeValue)) :=
  get_node_value_no_leaf_iff [192, 5, 5, 5, 5, 5, 5, 5, 5]
    { pathcompressed_child := 0, return_value := some [], operation_done := 0 }
    (by decide) (by decide)

/-- Claim C10: the 2-bit encoding of `OperationCommand` round-trips through
`into_bits`/`from_bits` for all four commands, and `from_bits` hits the
`panic!` arm (modelled as `none`) on every byte value greater than 3. -/
theorem operation_command_round_trip :
    (∀ c : OperationCommand, OperationCommand.from_bits c.into_bits = some c) ∧
    (∀ v : Nat, 3 < v → v ≤ 255 → OperationCommand.from_bits v = none) := by
  constructor
  · intro c
    cases c <;> rfl
  · intro v h1 _
    rcases v with _ | _ | _ | _ | w
    · omega
    · omega
    · omega
    · omega
    · rfl

/-- Witness for C10: the round trip at `Put` and the panic arm at byte 4. -/
theorem operation_command_round_trip_witness :
    OperationCommand.from_bits (OperationCommand.into_bits OperationCommand.Put) =
      some OperationCommand.Put ∧
    OperationCommand.from_bits 4 = none :=
  ⟨operation_command_round_trip.1 OperationCommand.Put,
   operation_command_round_trip.2 4 (by decide) (by decide)⟩

end Hyperion
